import Mathlib

/-!
Verification of the schema-resolution and error-projection core of
cypress-ajv-schema-validator.

The JavaScript source is shallowly embedded: JS values flowing through the
code are modelled by the inductive type `Json` (with an explicit `undef`
constructor, since the code distinguishes `undefined` from `null` via
lodash lookups and strict `=== undefined` checks), objects are ordered
association lists (JS objects preserve insertion order and have unique
keys), and the lodash helpers `_.get` / `_.set` used by the source are
modelled by `getMember`/`jget` and `lodashSet`.
-/

set_option maxRecDepth 4000

namespace SchemaValidator

/-- JS runtime values, as used by the validator code.  `undef` models
JavaScript `undefined` (lodash `_.get` returns it for a missing path and the
code branches on `=== undefined`).  Numbers in the documents and data the
code manipulates are modelled as integers (no float-specific behaviour is
exercised by the code under verification). -/
inductive Json where
  | undef : Json
  | null : Json
  | bool : Bool → Json
  | num : Int → Json
  | str : String → Json
  | arr : List Json → Json
  | obj : List (String × Json) → Json
  deriving Repr

mutual

def decEqJson : (a b : Json) → Decidable (a = b)
  | .undef, .undef => .isTrue rfl
  | .null, .null => .isTrue rfl
  | .bool a, .bool b =>
    if h : a = b then .isTrue (by rw [h]) else .isFalse (fun he => h (by injection he))
  | .num a, .num b =>
    if h : a = b then .isTrue (by rw [h]) else .isFalse (fun he => h (by injection he))
  | .str a, .str b =>
    if h : a = b then .isTrue (by rw [h]) else .isFalse (fun he => h (by injection he))
  | .arr xs, .arr ys =>
    match decEqJsonList xs ys with
    | .isTrue h => .isTrue (by rw [h])
    | .isFalse h => .isFalse (fun he => h (by injection he))
  | .obj fs, .obj gs =>
    match decEqJsonFields fs gs with
    | .isTrue h => .isTrue (by rw [h])
    | .isFalse h => .isFalse (fun he => h (by injection he))
  | .undef, .null | .undef, .bool _ | .undef, .num _ | .undef, .str _
  | .undef, .arr _ | .undef, .obj _
  | .null, .undef | .null, .bool _ | .null, .num _ | .null, .str _
  | .null, .arr _ | .null, .obj _
  | .bool _, .undef | .bool _, .null | .bool _, .num _ | .bool _, .str _
  | .bool _, .arr _ | .bool _, .obj _
  | .num _, .undef | .num _, .null | .num _, .bool _ | .num _, .str _
  | .num _, .arr _ | .num _, .obj _
  | .str _, .undef | .str _, .null | .str _, .bool _ | .str _, .num _
  | .str _, .arr _ | .str _, .obj _
  | .arr _, .undef | .arr _, .null | .arr _, .bool _ | .arr _, .num _
  | .arr _, .str _ | .arr _, .obj _
  | .obj _, .undef | .obj _, .null | .obj _, .bool _ | .obj _, .num _
  | .obj _, .str _ | .obj _, .arr _ => .isFalse (fun h => Json.noConfusion h)

def decEqJsonList : (xs ys : List Json) → Decidable (xs = ys)
  | [], [] => .isTrue rfl
  | [], _ :: _ => .isFalse (fun h => List.noConfusion h)
  | _ :: _, [] => .isFalse (fun h => List.noConfusion h)
  | x :: xs, y :: ys =>
    match decEqJson x y with
    | .isFalse h => .isFalse (fun he => by injection he with h1 h2; exact h h1)
    | .isTrue h1 =>
      match decEqJsonList xs ys with
      | .isTrue h2 => .isTrue (by rw [h1, h2])
      | .isFalse h => .isFalse (fun he => by injection he with ha hb; exact h hb)

def decEqJsonFields : (xs ys : List (String × Json)) → Decidable (xs = ys)
  | [], [] => .isTrue rfl
  | [], _ :: _ => .isFalse (fun h => List.noConfusion h)
  | _ :: _, [] => .isFalse (fun h => List.noConfusion h)
  | (k, v) :: xs, (k', v') :: ys =>
    if hk : k = k' then
      match decEqJson v v' with
      | .isFalse h =>
        .isFalse (fun he => by
          injection he with h1 h2
          exact h (congrArg Prod.snd h1))
      | .isTrue hv =>
        match decEqJsonFields xs ys with
        | .isTrue h2 => .isTrue (by rw [hk, hv, h2])
        | .isFalse h => .isFalse (fun he => by injection he with ha hb; exact h hb)
    else
      .isFalse (fun he => by
        injection he with h1 h2
        exact hk (congrArg Prod.fst h1))

end

instance : DecidableEq Json := decEqJson

namespace Json

/-- JS truthiness, used by `if (schema.swagger)` style branches. -/
def truthy : Json → Bool
  | .undef => false
  | .null => false
  | .bool b => b
  | .num n => n != 0
  | .str s => s != ""
  | .arr _ => true
  | .obj _ => true

/-- Whether the value is JS `undefined` (the sentinel lodash `_.get`
returns for a missing path, and that the source compares against). -/
def isUndef : Json → Bool
  | .undef => true
  | _ => false

/-- Whether the value is `null` or `undefined`, i.e. JS loose `== null`. -/
def isNullish : Json → Bool
  | .undef => true
  | .null => true
  | _ => false

/-- Whether the value can carry members (a JS object or array); lodash
`isObject`, restricted to the value shapes arising here. -/
def isContainer : Json → Bool
  | .arr _ => true
  | .obj _ => true
  | _ => false

end Json

/-- Split a character list at every occurrence of `sep` (the behaviour of
JS `String.prototype.split` with a one-character separator: an empty input
gives one empty group). -/
def splitOnChar (sep : Char) : List Char → List (List Char)
  | [] => [[]]
  | c :: rest =>
    let r := splitOnChar sep rest
    if c = sep then [] :: r
    else
      match r with
      | [] => [[c]]
      | g :: gs => (c :: g) :: gs

/-- JS `Array.prototype.join` with a separator string. -/
def joinWith (sep : String) : List String → String
  | [] => ""
  | [x] => x
  | x :: xs => x ++ sep ++ joinWith sep xs

/-- Parse a string of decimal digits (possibly with leading zeros) to a
natural number; `none` when empty or not all digits. -/
def strToNat? (s : String) : Option Nat :=
  if s.data ≠ [] ∧ s.data.all Char.isDigit then
    some (s.data.foldl (fun n c => n * 10 + (c.toNat - 48)) 0)
  else none

/-- Replace every occurrence of one character by another (the source's
`replaceAll` is only ever applied with one-character pattern and
replacement). -/
def replaceChar (s : String) (pat rep : Char) : String :=
  String.mk (s.data.map (fun c => if c = pat then rep else c))

/-- JS `String.prototype.toLowerCase` on the ASCII method names this code
handles. -/
def toLowerStr (s : String) : String :=
  String.mk (s.data.map Char.toLower)

/-- Whether a key string is a canonical array index, mirroring lodash
`isIndex` (the regular expression `(0|[1-9]\d*)`): all decimal digits with no
leading zero. -/
def isIndexKey (k : String) : Bool :=
  match strToNat? k with
  | some n => Nat.repr n == k
  | none => false

/-- Read an array slot; out-of-range slots read as `undefined`. -/
def arrGet : List Json → Nat → Json
  | [], _ => .undef
  | x :: _, 0 => x
  | _ :: xs, n + 1 => arrGet xs n

/-- One step of lodash `_.get`: read property `k` of a JS value.  A missing
property, or any property of a primitive, reads as `undefined`.  (Character
and `length` properties of strings, and non-index own properties of arrays,
are not modelled; neither occurs in the documents or AJV instance paths this
code handles.) -/
def getMember : Json → String → Json
  | .obj fs, k =>
    match fs.find? (fun p => p.1 == k) with
    | some p => p.2
    | none => .undef
  | .arr xs, k =>
    match strToNat? k with
    | some n => if Nat.repr n == k then arrGet xs n else .undef
    | none => .undef
  | _, _ => (.undef)

/-- lodash `_.get` over an already-parsed key path. -/
def jget (j : Json) (path : List String) : Json :=
  path.foldl getMember j

/-- lodash's parsing of a dotted path string into keys.  For the
bracket-free, quote-free paths this code builds, lodash's `stringToPath`
splits exactly at the dots (a `/` or any other character stays inside its
key, so `paths./x.get` parses as `paths`, `/x`, `get`). -/
def stringToPath (s : String) : List String :=
  (splitOnChar (Char.ofNat 46) s.data).map String.mk

/-- lodash `_.get` with a string path, as the source calls it. -/
def lodashGetStr (j : Json) (path : String) : Json :=
  jget j (stringToPath path)

/-- Assignment `o[k] = v` on a JS object: overwrite the existing key in
place (JS objects keep the original insertion position) or append it. -/
def objSet : List (String × Json) → String → Json → List (String × Json)
  | [], k, v => [(k, v)]
  | (k', v') :: fs, k, v =>
    if k' == k then (k, v) :: fs else (k', v') :: objSet fs k v

/-- Assignment `a[n] = v` on a JS array; indices past the end are created,
with the skipped slots reading as `undefined`. -/
def arrSet : List Json → Nat → Json → List Json
  | [], 0, v => [v]
  | [], n + 1, v => .undef :: arrSet [] n v
  | _ :: xs, 0, v => v :: xs
  | x :: xs, n + 1, v => x :: arrSet xs n v

/-- One assignment step of lodash `_.set`.  Assigning to a primitive is a
silent no-op (as in non-strict JS); assigning a non-index key to an array is
not modelled (it would store a non-index own property, which never arises
from AJV instance paths over JSON data). -/
def setMember : Json → String → Json → Json
  | .obj fs, k, v => .obj (objSet fs k v)
  | .arr xs, k, v =>
    match strToNat? k with
    | some n => if Nat.repr n == k then .arr (arrSet xs n v) else .arr xs
    | none => .arr xs
  | j, _, _ => j

/-- lodash `_.set`'s choice of intermediate container: keep an existing
object or array, otherwise create `[]` when the next key is an array index
and `\x7b\x7d` otherwise. -/
def prepChild (child : Json) (nextKey : String) : Json :=
  if child.isContainer then child
  else if isIndexKey nextKey then .arr []
  else .obj []

/-- lodash `_.set` over a parsed key path: walk the path, creating
intermediate containers as needed, and assign the final key. -/
def lodashSet : Json → List String → Json → Json
  | j, [], _ => j
  | j, [k], v => setMember j k v
  | j, k :: k2 :: rest, v =>
    setMember j k (lodashSet (prepChild (getMember j k) k2) (k2 :: rest) v)

/-- Sufficient condition for a `lodashSet` at this path to be readable back
by `jget` at the same path: the root is a container and every key applied to
an (existing or created) array is a canonical index. -/
def canSet : Json → List String → Bool
  | .obj _, [_] => true
  | .arr _, [k] => isIndexKey k
  | .obj fs, k :: k2 :: rest =>
    canSet (prepChild (getMember (.obj fs) k) k2) (k2 :: rest)
  | .arr xs, k :: k2 :: rest =>
    isIndexKey k && canSet (prepChild (getMember (.arr xs) k) k2) (k2 :: rest)
  | _, _ => false

/-- A single-quote character, written via its code point. -/
def squote : String := String.singleton (Char.ofNat 39)

/-- A double-quote character. -/
def dquote : String := String.singleton (Char.ofNat 34)

/-- `JSON.stringify` escaping of one character inside a string literal.
Only the quote and backslash escapes are modelled (no control characters
appear in the values this development evaluates). -/
def escapeJsonChar (c : Char) : String :=
  if c = Char.ofNat 34 then "\\" ++ dquote
  else if c = Char.ofNat 92 then "\\\\"
  else String.singleton c

/-- `JSON.stringify` escaping of a string body. -/
def escapeJsonString (s : String) : String :=
  joinWith "" (s.data.map escapeJsonChar)

mutual

/-- `JSON.stringify` with default (compact) separators.  An `undefined`
encountered inside an array renders as `null`; inside an object the field is
omitted (handled in `stringifyJsonFields`); a top-level `undefined` is
handled by `jsDisplayValue`. -/
def stringifyJson : Json → String
  | .undef => "null"
  | .null => "null"
  | .bool b => if b then "true" else "false"
  | .num n => toString n
  | .str s => dquote ++ escapeJsonString s ++ dquote
  | .arr xs => "[" ++ joinWith "," (stringifyJsonList xs) ++ "]"
  | .obj fs => "\x7b" ++ joinWith "," (stringifyJsonFields fs) ++ "\x7d"

def stringifyJsonList : List Json → List String
  | [] => []
  | x :: xs => stringifyJson x :: stringifyJsonList xs

def stringifyJsonFields : List (String × Json) → List String
  | [] => []
  | (k, v) :: fs =>
    if v.isUndef then stringifyJsonFields fs
    else (dquote ++ escapeJsonString k ++ dquote ++ ":" ++ stringifyJson v)
      :: stringifyJsonFields fs

end

/-- `String(JSON.stringify(value))` as the source computes it:
`JSON.stringify(undefined)` is the value `undefined`, which `String`
renders as `"undefined"`. -/
def jsDisplayValue : Json → String
  | .undef => "undefined"
  | v => stringifyJson v

/-- The icon prefixed to a value-mismatch annotation (source constant
`iconPropertyError`). -/
def iconPropertyErr : String := "🟠"

/-- The icon prefixed to a missing-property annotation (source constant
`iconPropertyMissing`). -/
def iconPropertyMissing : String := "🟥"

/-- A validation error record as produced by AJV, restricted to the fields
the source reads: `instancePath`, `keyword`, `message`, and
`params.missingProperty` (flattened to `missingProperty`; the code reads it
only when `keyword` is the required keyword). -/
structure AjvError where
  instancePath : String
  keyword : String
  message : String
  missingProperty : String
  deriving Repr, DecidableEq

/-- The source's conversion of an AJV instance path to a lodash dotted
path: strip one leading slash, then replace the remaining slashes by dots
(`error.instancePath.replace(...).split(...).join(...)`). -/
def dottedInstancePath (ip : String) : String :=
  let stripped : List Char :=
    match ip.data with
    | c :: rest => if c = Char.ofNat 47 then rest else ip.data
    | [] => []
  joinWith "." ((splitOnChar (Char.ofNat 47) stripped).map String.mk)

/-- The classification the projector applies to an error record, reflected
downstream in icon and colour choice. -/
inductive MismatchKind where
  | missingProp : MismatchKind
  | valueMismatch : MismatchKind
  deriving Repr, DecidableEq

/-- How `_logValidationResult`'s error loop classifies one record: the
required keyword means a missing property, anything else a value
mismatch. -/
def classifyError (e : AjvError) : MismatchKind :=
  if e.keyword == "required" then .missingProp else .valueMismatch

/-- The path at which the error loop writes its annotation: for a missing
property, the dotted instance path with the missing property name appended
(the missing property name alone at the document root); otherwise the
dotted instance path unchanged. -/
def targetPath (e : AjvError) : String :=
  let ip := dottedInstancePath e.instancePath
  if e.keyword == "required" then
    if ip == "" then e.missingProperty else ip ++ "." ++ e.missingProperty
  else ip

/-- The annotation string (`errorDescription` in the source): for a missing
property, the missing icon plus the property name in single quotes;
otherwise the error icon, the displayed current value (fetched from the
original `data` at the dotted instance path, stringified, double quotes
rewritten to single quotes) and the AJV message. -/
def annotationOf (data : Json) (e : AjvError) : String :=
  if e.keyword == "required" then
    iconPropertyMissing ++ " Missing property " ++ squote ++ e.missingProperty ++ squote
  else
    iconPropertyErr ++ " "
      ++ replaceChar (jsDisplayValue (jget data (stringToPath (dottedInstancePath e.instancePath)))) (Char.ofNat 34) (Char.ofNat 39)
      ++ " " ++ e.message

/-- One iteration of the error loop: write the annotation for `e` into the
accumulated mismatch view at the error's target path.  The displayed value
inside the annotation is read from `data`, the original input, never from
the accumulator. -/
def projectError (data acc : Json) (e : AjvError) : Json :=
  lodashSet acc (stringToPath (targetPath e)) (.str (annotationOf data e))

mutual

/-- lodash `cloneDeep`, a structural clone of the JSON-shaped value. -/
def cloneDeep : Json → Json
  | .undef => .undef
  | .null => .null
  | .bool b => .bool b
  | .num n => .num n
  | .str s => .str s
  | .arr xs => .arr (cloneDeepList xs)
  | .obj fs => .obj (cloneDeepFields fs)

def cloneDeepList : List Json → List Json
  | [] => []
  | x :: xs => cloneDeep x :: cloneDeepList xs

def cloneDeepFields : List (String × Json) → List (String × Json)
  | [] => []
  | (k, v) :: fs => (k, cloneDeep v) :: cloneDeepFields fs

end

/-- The two mutable locals of `_logValidationResult`'s failure branch that
the projection claims are about: the input `data` and the annotated clone
`dataMismatches`.  The explicit state makes the write targets of the loop
visible. -/
structure ProjState where
  data : Json
  mismatches : Json
  deriving Repr, DecidableEq

/-- One loop iteration as a state transformer: only the `mismatches` slot
is assigned (`Cypress._.set(dataMismatches, instancePath, errorDescription)`);
`data` is only read. -/
def logStep (s : ProjState) (e : AjvError) : ProjState :=
  { s with mismatches := projectError s.data s.mismatches e }

/-- The mismatch-projection part of `_logValidationResult`: clone the data,
then process the error records in array order. -/
def runProjection (data : Json) (errors : List AjvError) : ProjState :=
  errors.foldl logStep { data := data, mismatches := cloneDeep data }

/-- `_random`: `Math.random().toString(36).substring(10)`.  The argument is
the base-36 rendering of the `Math.random()` result (a string of the shape
`0.` followed by roughly ten to eleven base-36 digits); `substring(10)`
keeps the characters from index 10 onward. -/
def _random (mathRandomBase36 : String) : String :=
  String.mk (mathRandomBase36.data.drop 10)

/-- The `$id` string built by `_getSchemaFromSpecificationDoc` from the
already-generated random token and the lowercased lookup triple. -/
def specSchemaId (randToken endpoint method status : String) : String :=
  randToken ++ ":" ++ endpoint ++ ":" ++ method ++ ":" ++ status

/-- The structural-error outcomes of `_getSchemaFromSpecificationDoc`; each
carries the lookup path text interpolated into the thrown message. -/
inductive SpecError where
  | missingParameter : SpecError
  | responseDefinitionNotFound : String → String → SpecError
  | schemaDefinitionNotFound : String → SpecError
  deriving Repr, DecidableEq

/-- The `pathStatus` lookup string of the source:
`paths.<endpoint>.<method>.responses.<status>`. -/
def pathStatusStr (endpoint method status : String) : String :=
  "paths." ++ endpoint ++ "." ++ method ++ ".responses." ++ status

/-- The `pathDefault` lookup string of the source:
`paths.<endpoint>.<method>.responses.default`. -/
def pathDefaultStr (endpoint method : String) : String :=
  "paths." ++ endpoint ++ "." ++ method ++ ".responses.default"

/-- The dialect dispatch on the document's version markers: the nested
location of the response schema (`schemaProperty` in the source).  The
swagger marker is tested first; with neither marker the source leaves the
variable `undefined`. -/
def dialectSchemaProperty (doc : Json) : Option String :=
  if (getMember doc "swagger").truthy then some "schema"
  else if (getMember doc "openapi").truthy then some "content.application/json.schema"
  else none

/-- The dialect dispatch on the document's version markers: the object
spread last into the resolved schema (`componentsDefinitions` in the
source), carrying the document's shared-definitions table under the
dialect key.  With neither marker the variable stays `undefined` and the
spread contributes nothing. -/
def dialectComponents (doc : Json) : Json :=
  if (getMember doc "swagger").truthy then .obj [("definitions", getMember doc "definitions")]
  else if (getMember doc "openapi").truthy then .obj [("components", getMember doc "components")]
  else (.undef)

/-- The response-definition lookup:
`_.get(schema, pathStatus, _.get(schema, pathDefault))` — lodash falls back
to the third argument exactly when the first lookup yields `undefined`.
`method` is expected already lowercased. -/
def responseDefOf (doc : Json) (endpoint method status : String) : Json :=
  let r := lodashGetStr doc (pathStatusStr endpoint method status)
  if r.isUndef then lodashGetStr doc (pathDefaultStr endpoint method) else r

/-- The schema-fragment lookup `_.get(responseDef, schemaProperty)` at the
dialect-specific nested location.  When `schemaProperty` is `undefined`
(no dialect marker), lodash coerces the path to the single key
`"undefined"`. -/
def schemaDefOf (doc : Json) (endpoint method status : String) : Json :=
  match dialectSchemaProperty doc with
  | some sp => lodashGetStr (responseDefOf doc endpoint method status) sp
  | none => getMember (responseDefOf doc endpoint method status) "undefined"

/-- Spreading a JS value into an object literal being built: own enumerable
properties in order, later keys overwriting earlier values in place.
Objects contribute their fields, arrays their indexed elements, strings
their characters; primitives and `undefined`/`null` contribute nothing. -/
def spreadInto (fs : List (String × Json)) : Json → List (String × Json)
  | .obj gs => gs.foldl (fun acc p => objSet acc p.1 p.2) fs
  | .arr xs => xs.enum.foldl (fun acc p => objSet acc (Nat.repr p.1) p.2) fs
  | .str s => s.data.enum.foldl
      (fun acc p => objSet acc (Nat.repr p.1) (.str (String.singleton p.2))) fs
  | _ => fs

/-- `_getSchemaFromSpecificationDoc`.  `randToken` stands for the `_random()`
call made while building the `$id`; the descriptor fields arrive separately
(the source destructures them), with `Option.none` standing for a missing
(`== null`) field and the status already rendered to the string the
template literal would produce. -/
def _getSchemaFromSpecificationDoc (randToken : String) (doc : Json)
    (endpoint method status : Option String) : Except SpecError Json :=
  match endpoint, method, status with
  | some e, some m0, some s =>
    let m := toLowerStr m0
    let idStr := specSchemaId randToken e m s
    let responseDef := responseDefOf doc e m s
    if responseDef.isUndef then
      .error (.responseDefinitionNotFound (pathStatusStr e m s) (pathDefaultStr e m))
    else
      let schemaDef := schemaDefOf doc e m s
      if schemaDef.isUndef then
        .error (.schemaDefinitionNotFound
          (pathStatusStr e m s ++ "." ++ (dialectSchemaProperty doc).getD "undefined"))
      else
        .ok (.obj (spreadInto (spreadInto [("$id", .str idStr)] schemaDef)
          (dialectComponents doc)))
  | _, _, _ => .error .missingParameter

/-- The caller-supplied path descriptor of the public `validateSchema`
function.  Fields are `Option`s (`none` is a missing/`undefined` field);
the numeric `status` is modelled by its decimal string, which is what the
template literals render. -/
structure PathDescriptor where
  endpoint : Option String
  method : Option String
  status : Option String
  deriving Repr, DecidableEq

/-- JS `x || d` for an optional string slot: a missing field and the empty
string are falsy and give the default (the numeric status `0` being falsy
is not distinguished from absence here). -/
def jsOrStr (v : Option String) (d : String) : String :=
  match v with
  | some s => if s == "" then d else s
  | none => d

/-- The error outcomes `validateSchema` can throw. -/
inductive VSError where
  | missingSchema : VSError
  | specError : SpecError → VSError
  deriving Repr, DecidableEq

/-- What a call to the public `validateSchema` leaves behind: the caller's
`path` object as it stands after the call (the source assigns
`path.method` / `path.status` on it), and either a thrown error or the
returned AJV `errors` value (`none` both for the early `return null` and
for a valid result, exactly as both return `null` in JS). -/
structure VSOutcome where
  pathAfter : Option PathDescriptor
  result : Except VSError (Option (List AjvError))

/-- The public `validateSchema(data, schema, path)`.  `ajvErrors` stands
for the external AJV collaborator (`_validateSchemaAJV`'s `errors` field);
`disable` is `Cypress.env(disableSchemaValidation) === true`; `randToken`
is the `_random()` value consumed if the locator runs. -/
def validateSchema (ajvErrors : Json → Json → Option (List AjvError))
    (disable : Bool) (randToken : String)
    (data schema : Json) (path : Option PathDescriptor) : VSOutcome :=
  if disable then
    { pathAfter := path, result := .ok none }
  else if schema.isNullish then
    { pathAfter := path, result := .error .missingSchema }
  else
    match path with
    | some p =>
      let p' : PathDescriptor :=
        { p with method := some (jsOrStr p.method "GET"),
                 status := some (jsOrStr p.status "200") }
      if (getMember schema "swagger").truthy || (getMember schema "openapi").truthy then
        match _getSchemaFromSpecificationDoc randToken schema p'.endpoint p'.method p'.status with
        | .ok resolved => { pathAfter := some p', result := .ok (ajvErrors resolved data) }
        | .error err => { pathAfter := some p', result := .error (.specError err) }
      else
        { pathAfter := some p', result := .ok (ajvErrors schema data) }
    | none => { pathAfter := none, result := .ok (ajvErrors schema data) }

deriving instance DecidableEq for Except

/-- The value of the last binding of key `k` in a field list (for a JS
object, whose keys are unique, this is simply the value at `k`). -/
def lastVal (fs : List (String × Json)) (k : String) : Option Json :=
  (fs.reverse.find? (fun p => p.1 == k)).map (fun p => p.2)

/-- A shared-definitions table used by the sample documents. -/
def sharedDefsUser : Json := .obj [("User", .obj [("type", .str "object")])]

/-- A fragment-local definitions table, distinct from the shared one. -/
def localDefs : Json := .obj [("Local", .obj [("type", .str "string")])]

/-- A schema fragment that itself carries a `definitions` property. -/
def fragConflict : Json := .obj [("type", .str "object"), ("definitions", localDefs)]

/-- A Swagger document whose response schema fragment has its own
`definitions` key, conflicting with the document's shared table. -/
def swaggerDocConflict : Json := .obj [
  ("swagger", .str "2.0"),
  ("definitions", sharedDefsUser),
  ("paths", .obj [("/u", .obj [("get", .obj [("responses",
    .obj [("200", .obj [("schema", fragConflict)])])])])])]

/-- The resolved schema the locator produces from `swaggerDocConflict`. -/
def resolvedConflict : Json := .obj [
  ("$id", .str "tok:/u:get:200"),
  ("type", .str "object"),
  ("definitions", sharedDefsUser)]

/-- A plain fragment for the default-status sample. -/
def simpleFrag : Json := .obj [("type", .str "object")]

/-- A Swagger document with only a `default` response entry under
`GET /x` (no `200` entry). -/
def defaultOnlyDoc : Json := .obj [
  ("swagger", .str "2.0"),
  ("paths", .obj [("/x", .obj [("get", .obj [("responses",
    .obj [("default", .obj [("schema", simpleFrag)])])])])])]

/-- The resolved schema from `defaultOnlyDoc` at status 200 (the document
has no top-level `definitions`, so the attached table reads `undefined`). -/
def resolvedDefaultOnly : Json := .obj [
  ("$id", .str "tok:/x:get:200"),
  ("type", .str "object"),
  ("definitions", .undef)]

/-- The `$ref` fragment of the OpenAPI sample. -/
def userSchemaRef : Json := .obj [("$ref", .str "#/components/schemas/User")]

/-- The shared components table of the OpenAPI sample. -/
def openApiComponents : Json :=
  .obj [("schemas", .obj [("User", .obj [("type", .str "object")])])]

/-- An OpenAPI document with a `GET /users` 200 response schema under
`content.application/json.schema`. -/
def openApiUsersDoc : Json := .obj [
  ("openapi", .str "3.0.1"),
  ("components", openApiComponents),
  ("paths", .obj [("/users", .obj [("get", .obj [("responses",
    .obj [("200", .obj [("content", .obj [("application/json",
      .obj [("schema", userSchemaRef)])])])])])])])]

/-- The resolved schema the locator produces from `openApiUsersDoc`. -/
def resolvedOpenApiUsers : Json := .obj [
  ("$id", .str "tok:/users:get:200"),
  ("$ref", .str "#/components/schemas/User"),
  ("components", openApiComponents)]

/-- Sample data for the value-mismatch example: an age that is a string. -/
def data49 : Json := .obj [("age", .str "49")]

/-- The AJV error for `data49` against a numeric age schema. -/
def err49 : AjvError :=
  { instancePath := "/age", keyword := "type", message := "must be number",
    missingProperty := "" }

/-- The AJV error for empty data against a schema requiring `age`. -/
def errAgeRequired : AjvError :=
  { instancePath := "", keyword := "required",
    message := "must have required property age", missingProperty := "age" }

/-- Nested sample data for the same-target-path scenarios. -/
def cdata : Json := .obj [("a", .obj [("b", .num 1)])]

/-- First error at nested path a.b. -/
def ce1 : AjvError :=
  { instancePath := "/a/b", keyword := "type", message := "must be string",
    missingProperty := "" }

/-- Second error at the same nested path a.b. -/
def ce2 : AjvError :=
  { instancePath := "/a/b", keyword := "minimum", message := "must be >= 2",
    missingProperty := "" }

/-- A later error at the parent path a. -/
def ce3 : AjvError :=
  { instancePath := "/a", keyword := "type", message := "must be array",
    missingProperty := "" }

mutual

theorem cloneDeep_eq : (j : Json) → cloneDeep j = j
  | .undef => rfl
  | .null => rfl
  | .bool _ => rfl
  | .num _ => rfl
  | .str _ => rfl
  | .arr xs => by rw [cloneDeep, cloneDeepList_eq xs]
  | .obj fs => by rw [cloneDeep, cloneDeepFields_eq fs]

theorem cloneDeepList_eq : (xs : List Json) → cloneDeepList xs = xs
  | [] => rfl
  | x :: xs => by rw [cloneDeepList, cloneDeep_eq x, cloneDeepList_eq xs]

theorem cloneDeepFields_eq : (fs : List (String × Json)) → cloneDeepFields fs = fs
  | [] => rfl
  | (k, v) :: fs => by rw [cloneDeepFields, cloneDeep_eq v, cloneDeepFields_eq fs]

end

theorem logStep_data (s : ProjState) (e : AjvError) : (logStep s e).data = s.data := rfl

theorem foldl_logStep_data (es : List AjvError) (s : ProjState) :
    (es.foldl logStep s).data = s.data := by
  induction es generalizing s with
  | nil => rfl
  | cons e es ih => rw [List.foldl_cons, ih, logStep_data]

theorem runProjection_data (data : Json) (es : List AjvError) :
    (runProjection data es).data = data := by
  rw [runProjection, foldl_logStep_data]

theorem runProjection_append (data : Json) (l₁ l₂ : List AjvError) :
    runProjection data (l₁ ++ l₂) = l₂.foldl logStep (runProjection data l₁) := by
  rw [runProjection, runProjection, List.foldl_append]

theorem jget_cons (j : Json) (k : String) (p : List String) :
    jget j (k :: p) = jget (getMember j k) p := rfl

theorem find?_objSet_self (fs : List (String × Json)) (k : String) (v : Json) :
    (objSet fs k v).find? (fun p => p.1 == k) = some (k, v) := by
  induction fs with
  | nil => simp [objSet]
  | cons p fs ih =>
    obtain ⟨k', v'⟩ := p
    by_cases h : k' = k
    · subst h; simp [objSet]
    · simp [objSet, h, List.find?, ih]

theorem find?_objSet_other (fs : List (String × Json)) (k k' : String) (v : Json)
    (h : k' ≠ k) :
    (objSet fs k v).find? (fun p => p.1 == k') = fs.find? (fun p => p.1 == k') := by
  have hkk : (k == k') = false := beq_eq_false_iff_ne.mpr (Ne.symm h)
  induction fs with
  | nil => simp [objSet, List.find?, hkk]
  | cons p fs ih =>
    obtain ⟨k₀, v₀⟩ := p
    by_cases h0 : k₀ = k
    · subst h0; simp [objSet, List.find?, hkk]
    · simp [objSet, h0, List.find?, ih]

theorem getMember_objSet_self (fs : List (String × Json)) (k : String) (v : Json) :
    getMember (.obj (objSet fs k v)) k = v := by
  simp [getMember, find?_objSet_self]

theorem getMember_objSet_other (fs : List (String × Json)) (k k' : String) (v : Json)
    (h : k' ≠ k) :
    getMember (.obj (objSet fs k v)) k' = getMember (.obj fs) k' := by
  simp [getMember, find?_objSet_other fs k k' v h]

theorem arrGet_arrSet_self : (xs : List Json) → (n : Nat) → (v : Json) →
    arrGet (arrSet xs n v) n = v
  | [], 0, _ => rfl
  | [], n + 1, v => by
    simpa [arrSet, arrGet] using arrGet_arrSet_self [] n v
  | _ :: _, 0, _ => rfl
  | x :: xs, n + 1, v => by
    simpa [arrSet, arrGet] using arrGet_arrSet_self xs n v

theorem getMember_setMember_obj (fs : List (String × Json)) (k : String) (v : Json) :
    getMember (setMember (.obj fs) k v) k = v := by
  simp [setMember, getMember_objSet_self]

theorem getMember_setMember_arr (xs : List Json) (k : String) (v : Json)
    (h : isIndexKey k = true) :
    getMember (setMember (.arr xs) k v) k = v := by
  rcases hn : strToNat? k with _ | n
  · simp [isIndexKey, hn] at h
  · have h' : (Nat.repr n == k) = true := by simpa [isIndexKey, hn] using h
    simp [setMember, getMember, hn, h', arrGet_arrSet_self]

theorem jget_lodashSet_self (v : Json) :
    ∀ (p : List String) (j : Json), canSet j p = true → jget (lodashSet j p v) p = v := by
  intro p
  induction p with
  | nil => intro j h; cases j <;> simp [canSet] at h
  | cons k rest ih =>
    intro j h
    cases rest with
    | nil =>
      cases j with
      | obj fs => simpa [lodashSet, jget] using getMember_setMember_obj fs k v
      | arr xs =>
        have hk : isIndexKey k = true := by simpa [canSet] using h
        simpa [lodashSet, jget] using getMember_setMember_arr xs k v hk
      | undef => simp [canSet] at h
      | null => simp [canSet] at h
      | bool b => simp [canSet] at h
      | num n => simp [canSet] at h
      | str s => simp [canSet] at h
    | cons k2 rs =>
      cases j with
      | obj fs =>
        have h' : canSet (prepChild (getMember (.obj fs) k) k2) (k2 :: rs) = true := by
          simpa [canSet] using h
        calc jget (lodashSet (.obj fs) (k :: k2 :: rs) v) (k :: k2 :: rs)
            = jget (getMember (setMember (.obj fs) k
                (lodashSet (prepChild (getMember (.obj fs) k) k2) (k2 :: rs) v)) k)
                (k2 :: rs) := rfl
          _ = jget (lodashSet (prepChild (getMember (.obj fs) k) k2) (k2 :: rs) v)
                (k2 :: rs) := by rw [getMember_setMember_obj]
          _ = v := ih _ h'
      | arr xs =>
        have h' : isIndexKey k = true
            ∧ canSet (prepChild (getMember (.arr xs) k) k2) (k2 :: rs) = true := by
          simpa [canSet, Bool.and_eq_true] using h
        calc jget (lodashSet (.arr xs) (k :: k2 :: rs) v) (k :: k2 :: rs)
            = jget (getMember (setMember (.arr xs) k
                (lodashSet (prepChild (getMember (.arr xs) k) k2) (k2 :: rs) v)) k)
                (k2 :: rs) := rfl
          _ = jget (lodashSet (prepChild (getMember (.arr xs) k) k2) (k2 :: rs) v)
                (k2 :: rs) := by rw [getMember_setMember_arr _ _ _ h'.1]
          _ = v := ih _ h'.2
      | undef => simp [canSet] at h
      | null => simp [canSet] at h
      | bool b => simp [canSet] at h
      | num n => simp [canSet] at h
      | str s => simp [canSet] at h

theorem lastVal_append (gs : List (String × Json)) (k k' : String) (v' : Json) :
    lastVal (gs ++ [(k', v')]) k = if (k' == k) then some v' else lastVal gs k := by
  unfold lastVal
  rw [List.reverse_append]
  simp only [List.reverse_singleton, List.singleton_append, List.find?]
  cases h : (k' == k) <;> simp [h]

theorem spreadFold_find?_some (k : String) (v : Json) :
    ∀ (gs fs : List (String × Json)), lastVal gs k = some v →
      ((gs.foldl (fun acc p => objSet acc p.1 p.2) fs).find? (fun p => p.1 == k))
        = some (k, v) := by
  intro gs
  induction gs using List.reverseRecOn with
  | nil => intro fs h; simp [lastVal] at h
  | append_singleton l a ih =>
    intro fs h
    obtain ⟨k', v'⟩ := a
    rw [List.foldl_append, List.foldl_cons, List.foldl_nil]
    rw [lastVal_append] at h
    by_cases hk : (k' == k) = true
    · rw [if_pos hk] at h
      obtain rfl : v' = v := by injection h
      obtain rfl : k' = k := by simpa using hk
      exact find?_objSet_self _ _ _
    · rw [if_neg hk] at h
      have hne : k' ≠ k := by simpa using hk
      rw [find?_objSet_other _ _ _ _ (Ne.symm hne)]
      exact ih fs h

theorem spreadFold_find?_none (k : String) :
    ∀ (gs fs : List (String × Json)), lastVal gs k = none →
      ((gs.foldl (fun acc p => objSet acc p.1 p.2) fs).find? (fun p => p.1 == k))
        = fs.find? (fun p => p.1 == k) := by
  intro gs
  induction gs using List.reverseRecOn with
  | nil => intro fs _; rfl
  | append_singleton l a ih =>
    intro fs h
    obtain ⟨k', v'⟩ := a
    rw [List.foldl_append, List.foldl_cons, List.foldl_nil]
    rw [lastVal_append] at h
    by_cases hk : (k' == k) = true
    · rw [if_pos hk] at h; exact absurd h (by simp)
    · rw [if_neg hk] at h
      have hne : k' ≠ k := by simpa using hk
      rw [find?_objSet_other _ _ _ _ (Ne.symm hne)]
      exact ih fs h

theorem getMember_spread_some (gs fs : List (String × Json)) (k : String) (v : Json)
    (h : lastVal gs k = some v) :
    getMember (.obj (gs.foldl (fun acc p => objSet acc p.1 p.2) fs)) k = v := by
  simp [getMember, spreadFold_find?_some k v gs fs h]

theorem getMember_spread_none (gs fs : List (String × Json)) (k : String)
    (h : lastVal gs k = none) :
    getMember (.obj (gs.foldl (fun acc p => objSet acc p.1 p.2) fs)) k
      = getMember (.obj fs) k := by
  simp [getMember, spreadFold_find?_none k gs fs h]

theorem spreadInto_obj (fs gs : List (String × Json)) :
    spreadInto fs (.obj gs) = gs.foldl (fun acc p => objSet acc p.1 p.2) fs := rfl

theorem spreadInto_single (fs : List (String × Json)) (k : String) (v : Json) :
    spreadInto fs (.obj [(k, v)]) = objSet fs k v := rfl

theorem responseDefOf_isUndef_iff (doc : Json) (e m s : String) :
    (responseDefOf doc e m s).isUndef = true ↔
      ((lodashGetStr doc (pathStatusStr e m s)).isUndef = true
        ∧ (lodashGetStr doc (pathDefaultStr e m)).isUndef = true) := by
  unfold responseDefOf
  by_cases h : (lodashGetStr doc (pathStatusStr e m s)).isUndef = true <;> simp [h]

theorem responseDefOf_of_status_undef (doc : Json) (e m s : String)
    (h : (lodashGetStr doc (pathStatusStr e m s)).isUndef = true) :
    responseDefOf doc e m s = lodashGetStr doc (pathDefaultStr e m) := by
  unfold responseDefOf; simp [h]

theorem responseDefOf_of_status_present (doc : Json) (e m s : String)
    (h : (lodashGetStr doc (pathStatusStr e m s)).isUndef = false) :
    responseDefOf doc e m s = lodashGetStr doc (pathStatusStr e m s) := by
  unfold responseDefOf; simp [h]

theorem getSchema_some_eq (randToken : String) (doc : Json) (e m0 s : String) :
    _getSchemaFromSpecificationDoc randToken doc (some e) (some m0) (some s)
      = (if (responseDefOf doc e (toLowerStr m0) s).isUndef then
          .error (.responseDefinitionNotFound (pathStatusStr e (toLowerStr m0) s)
            (pathDefaultStr e (toLowerStr m0)))
        else if (schemaDefOf doc e (toLowerStr m0) s).isUndef then
          .error (.schemaDefinitionNotFound (pathStatusStr e (toLowerStr m0) s ++ "."
            ++ (dialectSchemaProperty doc).getD "undefined"))
        else .ok (.obj (spreadInto (spreadInto
          [("$id", .str (specSchemaId randToken e (toLowerStr m0) s))]
          (schemaDefOf doc e (toLowerStr m0) s)) (dialectComponents doc)))) := rfl

/-- C6: the mismatch projector never mutates its `data` input: after
processing any list of validation error records the data is equal to its
original value (every `_.set` of the loop targets the `dataMismatches`
clone, which itself starts out value-equal to the data). -/
theorem mismatchProjector_preserves_data (data : Json) (errors : List AjvError) :
    (runProjection data errors).data = data
      ∧ (runProjection data []).mismatches = data := by
  refine ⟨runProjection_data data errors, ?_⟩
  rw [runProjection, List.foldl_nil, cloneDeep_eq]

/-- C10: with the disableSchemaValidation environment flag strictly equal to
true, the public validateSchema returns null for every input without
inspecting any argument: the descriptor is untouched and even a null schema
raises no missing-schema error. -/
theorem validateSchema_disabled_returns_null
    (ajvErrors : Json → Json → Option (List AjvError)) (randToken : String)
    (data schema : Json) (path : Option PathDescriptor) :
    validateSchema ajvErrors true randToken data schema path
      = { pathAfter := path, result := .ok none } := rfl

/-- C4: an error record with the required keyword is classified
MISSING-PROPERTY; its target path is the dotted instance path with
`params.missingProperty` appended (the missing property name alone at the
root); its annotation is built from the missing property's name; and the
projector writes exactly that annotation at that path in the view. -/
theorem required_error_classification (data acc : Json) (e : AjvError)
    (h : e.keyword = "required") :
    classifyError e = .missingProp
    ∧ targetPath e = (if dottedInstancePath e.instancePath = "" then e.missingProperty
        else dottedInstancePath e.instancePath ++ "." ++ e.missingProperty)
    ∧ annotationOf data e
        = iconPropertyMissing ++ " Missing property " ++ squote ++ e.missingProperty ++ squote
    ∧ projectError data acc e
        = lodashSet acc (stringToPath (targetPath e)) (.str (annotationOf data e))
    ∧ (runProjection data [e]).mismatches
        = lodashSet data (stringToPath (targetPath e)) (.str (annotationOf data e)) := by
  refine ⟨by simp [classifyError, h], ?_, by simp [annotationOf, h], rfl, ?_⟩
  · by_cases hip : dottedInstancePath e.instancePath = ""
    · simp [targetPath, h, hip]
    · simp [targetPath, h, hip]
  · rw [runProjection, List.foldl_cons, List.foldl_nil]
    show projectError data (cloneDeep data) e = _
    rw [cloneDeep_eq, projectError]

/-- Witness for C4 at the spec's concrete example: empty data, schema
requiring age; the single error targets path age, is MISSING-PROPERTY, and
the view gains the missing-property annotation under the key age. -/
theorem required_error_classification_witness :
    classifyError errAgeRequired = .missingProp
    ∧ targetPath errAgeRequired = "age"
    ∧ (runProjection (.obj []) [errAgeRequired]).mismatches
        = .obj [("age", .str (annotationOf (.obj []) errAgeRequired))] := by
  have h := required_error_classification (.obj []) (.obj []) errAgeRequired (by decide)
  exact ⟨h.1, by rw [h.2.1]; decide, by decide⟩

/-- C5: an error record with any other keyword is classified VALUE-MISMATCH;
it targets the dotted instance path unchanged; its annotation is the error
icon, the current value at that path fetched from the original data
(stringified, double quotes rendered as single quotes) and the engine's
message; the projector writes that annotation at that path, and does so
reading the value from the original data even after earlier errors have
already annotated the view. -/
theorem valueMismatch_error_classification (data acc : Json) (e : AjvError)
    (h : e.keyword ≠ "required") :
    classifyError e = .valueMismatch
    ∧ targetPath e = dottedInstancePath e.instancePath
    ∧ annotationOf data e = iconPropertyErr ++ " "
        ++ replaceChar
            (jsDisplayValue (jget data (stringToPath (dottedInstancePath e.instancePath))))
            (Char.ofNat 34) (Char.ofNat 39)
        ++ " " ++ e.message
    ∧ projectError data acc e
        = lodashSet acc (stringToPath (targetPath e)) (.str (annotationOf data e))
    ∧ ∀ l : List AjvError,
        (runProjection data (l ++ [e])).mismatches
          = lodashSet (runProjection data l).mismatches
              (stringToPath (targetPath e)) (.str (annotationOf data e)) := by
  have hb : (e.keyword == "required") = false := beq_eq_false_iff_ne.mpr h
  refine ⟨by simp [classifyError, hb], by simp [targetPath, hb],
    by simp [annotationOf, hb], rfl, ?_⟩
  intro l
  rw [runProjection_append, List.foldl_cons, List.foldl_nil]
  show projectError (runProjection data l).data (runProjection data l).mismatches e = _
  rw [runProjection_data, projectError]

/-- Witness for C5 at the spec's concrete example: data with a string age
against a numeric age schema; the error targets path age, is classified
VALUE-MISMATCH, and the view at age becomes an annotation string carrying
the engine's message, not the original value. -/
theorem valueMismatch_error_classification_witness :
    classifyError err49 = .valueMismatch
    ∧ targetPath err49 = "age"
    ∧ (runProjection data49 [err49]).mismatches
        = .obj [("age", .str (annotationOf data49 err49))]
    ∧ getMember (runProjection data49 [err49]).mismatches "age" ≠ getMember data49 "age" := by
  have h := valueMismatch_error_classification data49 (.obj []) err49 (by decide)
  exact ⟨h.1, by rw [h.2.1]; decide, by decide, by decide⟩

/-- C2: the locator first looks up paths.endpoint.method.responses.status,
falls back to responses.default if that entry is absent, and throws the
response-definition-not-found error exactly when neither entry exists;
moreover full resolution succeeds exactly when a response definition was
found and the dialect-specific schema fragment exists inside it. -/
theorem responseDef_lookup_order (randToken : String) (doc : Json) (e m0 s : String) :
    ((_getSchemaFromSpecificationDoc randToken doc (some e) (some m0) (some s)
        = .error (.responseDefinitionNotFound (pathStatusStr e (toLowerStr m0) s)
            (pathDefaultStr e (toLowerStr m0))))
      ↔ ((lodashGetStr doc (pathStatusStr e (toLowerStr m0) s)).isUndef = true
          ∧ (lodashGetStr doc (pathDefaultStr e (toLowerStr m0))).isUndef = true))
    ∧ ((lodashGetStr doc (pathStatusStr e (toLowerStr m0) s)).isUndef = true →
        responseDefOf doc e (toLowerStr m0) s
          = lodashGetStr doc (pathDefaultStr e (toLowerStr m0)))
    ∧ ((∃ r, _getSchemaFromSpecificationDoc randToken doc (some e) (some m0) (some s)
          = .ok r)
        ↔ ((responseDefOf doc e (toLowerStr m0) s).isUndef = false
            ∧ (schemaDefOf doc e (toLowerStr m0) s).isUndef = false)) := by
  have hiff := responseDefOf_isUndef_iff doc e (toLowerStr m0) s
  rw [getSchema_some_eq]
  by_cases h1 : (responseDefOf doc e (toLowerStr m0) s).isUndef = true
  · rw [if_pos h1]
    exact ⟨by simp [(hiff.mp h1).1, (hiff.mp h1).2],
      responseDefOf_of_status_undef _ _ _ _,
      by simp [h1]⟩
  · rw [if_neg h1]
    have hAB : ¬((lodashGetStr doc (pathStatusStr e (toLowerStr m0) s)).isUndef = true
        ∧ (lodashGetStr doc (pathDefaultStr e (toLowerStr m0))).isUndef = true) :=
      fun hc => h1 (hiff.mpr hc)
    refine ⟨⟨fun he => ?_, fun hc => absurd hc hAB⟩,
      responseDefOf_of_status_undef _ _ _ _, ?_⟩
    · by_cases h2 : (schemaDefOf doc e (toLowerStr m0) s).isUndef = true
      · rw [if_pos h2] at he; exact absurd he (by simp)
      · rw [if_neg h2] at he; exact absurd he (by simp)
    · by_cases h2 : (schemaDefOf doc e (toLowerStr m0) s).isUndef = true
      · rw [if_pos h2]; simp [h2]
      · rw [if_neg h2]; simp [h1, h2]

/-- Witness for C2: a document whose GET /x carries only a default response,
queried with status 200, resolves successfully through the default entry. -/
theorem responseDef_lookup_order_witness :
    (lodashGetStr defaultOnlyDoc (pathStatusStr "/x" "get" "200")).isUndef = true
    ∧ responseDefOf defaultOnlyDoc "/x" "get" "200"
        = lodashGetStr defaultOnlyDoc (pathDefaultStr "/x" "get")
    ∧ _getSchemaFromSpecificationDoc "tok" defaultOnlyDoc
        (some "/x") (some "get") (some "200") = .ok resolvedDefaultOnly := by
  have h := responseDef_lookup_order "tok" defaultOnlyDoc "/x" "get" "200"
  have hl : toLowerStr "get" = "get" := by decide
  rw [hl] at h
  exact ⟨by decide, h.2.1 (by decide), by decide⟩

/-- C3: for a successful resolution, the schema fragment is read at the
dialect-specific nested location and the shared table is attached under the
dialect-matching key: a swagger document reads responses.status.schema and
attaches definitions; an openapi document reads
responses.status.content.application/json.schema and attaches components. -/
theorem dialect_extraction (randToken : String) (doc : Json) (e m0 s : String) (r : Json) :
    ((getMember doc "swagger").truthy = true →
      dialectSchemaProperty doc = some "schema"
      ∧ schemaDefOf doc e (toLowerStr m0) s
          = getMember (responseDefOf doc e (toLowerStr m0) s) "schema"
      ∧ (_getSchemaFromSpecificationDoc randToken doc (some e) (some m0) (some s) = .ok r →
          getMember r "definitions" = getMember doc "definitions"))
    ∧ ((getMember doc "swagger").truthy = false → (getMember doc "openapi").truthy = true →
      dialectSchemaProperty doc = some "content.application/json.schema"
      ∧ schemaDefOf doc e (toLowerStr m0) s
          = jget (responseDefOf doc e (toLowerStr m0) s)
              ["content", "application/json", "schema"]
      ∧ (_getSchemaFromSpecificationDoc randToken doc (some e) (some m0) (some s) = .ok r →
          getMember r "components" = getMember doc "components")) := by
  constructor
  · intro hsw
    have hd : dialectSchemaProperty doc = some "schema" := by
      simp [dialectSchemaProperty, hsw]
    have hpath : stringToPath "schema" = ["schema"] := by decide
    refine ⟨hd, ?_, ?_⟩
    · rw [schemaDefOf, hd]
      simp only [lodashGetStr, hpath, jget, List.foldl_cons, List.foldl_nil]
    · intro he
      rw [getSchema_some_eq] at he
      by_cases h1 : (responseDefOf doc e (toLowerStr m0) s).isUndef = true
      · rw [if_pos h1] at he; exact absurd he (by simp)
      · rw [if_neg h1] at he
        by_cases h2 : (schemaDefOf doc e (toLowerStr m0) s).isUndef = true
        · rw [if_pos h2] at he; exact absurd he (by simp)
        · rw [if_neg h2] at he
          obtain rfl : r = _ := by
            injection he with hh; exact hh.symm
          have hcomp : dialectComponents doc
              = .obj [("definitions", getMember doc "definitions")] := by
            simp [dialectComponents, hsw]
          rw [hcomp, spreadInto_single]
          exact getMember_objSet_self _ _ _
  · intro hsw hoa
    have hd : dialectSchemaProperty doc = some "content.application/json.schema" := by
      simp [dialectSchemaProperty, hsw, hoa]
    have hpath : stringToPath "content.application/json.schema"
        = ["content", "application/json", "schema"] := by decide
    refine ⟨hd, ?_, ?_⟩
    · rw [schemaDefOf, hd]
      simp only [lodashGetStr, hpath]
    · intro he
      rw [getSchema_some_eq] at he
      by_cases h1 : (responseDefOf doc e (toLowerStr m0) s).isUndef = true
      · rw [if_pos h1] at he; exact absurd he (by simp)
      · rw [if_neg h1] at he
        by_cases h2 : (schemaDefOf doc e (toLowerStr m0) s).isUndef = true
        · rw [if_pos h2] at he; exact absurd he (by simp)
        · rw [if_neg h2] at he
          obtain rfl : r = _ := by
            injection he with hh; exact hh.symm
          have hcomp : dialectComponents doc
              = .obj [("components", getMember doc "components")] := by
            simp [dialectComponents, hsw, hoa]
          rw [hcomp, spreadInto_single]
          exact getMember_objSet_self _ _ _

/-- Witness for C3: the swagger conflict sample attaches the document's
definitions table; the openapi sample reads the fragment under
content.application/json.schema and attaches the components table. -/
theorem dialect_extraction_witness :
    getMember resolvedConflict "definitions" = getMember swaggerDocConflict "definitions"
    ∧ schemaDefOf openApiUsersDoc "/users" "get" "200" = userSchemaRef
    ∧ getMember resolvedOpenApiUsers "components" = getMember openApiUsersDoc "components" := by
  have hl : toLowerStr "get" = "get" := by decide
  have h1 := (dialect_extraction "tok" swaggerDocConflict "/u" "get" "200"
    resolvedConflict).1 (by decide)
  have h2 := (dialect_extraction "tok" openApiUsersDoc "/users" "get" "200"
    resolvedOpenApiUsers).2 (by decide) (by decide)
  rw [hl] at h1 h2
  exact ⟨h1.2.2 (by decide), by decide, h2.2.2 (by decide)⟩

/-- C1 counterexample: resolving a swagger document whose fragment carries
its own definitions property keeps the document's shared table, not the
fragment's value — the claim says the fragment's key should win. -/
theorem resolvedSchema_fragment_loses :
    _getSchemaFromSpecificationDoc "tok" swaggerDocConflict
      (some "/u") (some "GET") (some "200") = .ok resolvedConflict
    ∧ getMember fragConflict "definitions" = localDefs
    ∧ getMember resolvedConflict "definitions" = sharedDefsUser
    ∧ localDefs ≠ sharedDefsUser := by decide

/-- C1 (amended): the resolved schema is the synthetic identifier, the
fragment's own properties and the shared table under the dialect key, but
on a key conflict the shared table wins (it is spread last): the value at
the shared key is always the document's shared table, every other fragment
key keeps the fragment's value, and the identifier survives only when the
fragment does not itself bind an id. -/
theorem resolvedSchema_merge (randToken : String) (doc : Json) (e m0 s : String)
    (r : Json) (sharedKey : String) (sharedVal : Json) (fs : List (String × Json))
    (hd : dialectComponents doc = .obj [(sharedKey, sharedVal)])
    (hf : schemaDefOf doc e (toLowerStr m0) s = .obj fs)
    (hr : _getSchemaFromSpecificationDoc randToken doc (some e) (some m0) (some s)
      = .ok r) :
    getMember r sharedKey = sharedVal
    ∧ (∀ k v, k ≠ sharedKey → lastVal fs k = some v → getMember r k = v)
    ∧ ("$id" ≠ sharedKey → lastVal fs "$id" = none →
        getMember r "$id" = .str (specSchemaId randToken e (toLowerStr m0) s)) := by
  rw [getSchema_some_eq] at hr
  by_cases h1 : (responseDefOf doc e (toLowerStr m0) s).isUndef = true
  · rw [if_pos h1] at hr; exact absurd hr (by simp)
  · rw [if_neg h1] at hr
    by_cases h2 : (schemaDefOf doc e (toLowerStr m0) s).isUndef = true
    · rw [if_pos h2] at hr; exact absurd hr (by simp)
    · rw [if_neg h2] at hr
      obtain rfl : r = _ := by injection hr with hh; exact hh.symm
      rw [hf, hd, spreadInto_single]
      refine ⟨getMember_objSet_self _ _ _, ?_, ?_⟩
      · intro k v hk hlast
        rw [getMember_objSet_other _ _ _ _ hk, spreadInto_obj]
        exact getMember_spread_some fs _ k v hlast
      · intro hid hnone
        rw [getMember_objSet_other _ _ _ _ hid, spreadInto_obj,
          getMember_spread_none fs _ _ hnone]
        simp [getMember, List.find?]

/-- Witness for C1's amended statement on the swagger conflict sample. -/
theorem resolvedSchema_merge_witness :
    getMember resolvedConflict "definitions" = sharedDefsUser
    ∧ getMember resolvedConflict "type" = .str "object"
    ∧ getMember resolvedConflict "$id" = .str "tok:/u:get:200" := by
  have h := resolvedSchema_merge "tok" swaggerDocConflict "/u" "get" "200"
    resolvedConflict "definitions" sharedDefsUser
    [("type", .str "object"), ("definitions", localDefs)]
    (by decide) (by decide) (by decide)
  have h3 := h.2.2 (by decide) (by decide)
  rw [show specSchemaId "tok" "/u" (toLowerStr "get") "200" = "tok:/u:get:200"
    from by decide] at h3
  exact ⟨h.1, h.2.1 "type" (.str "object") (by decide) (by decide), h3⟩

/-- C7 counterexample: with a plain schema and a descriptor lacking method
and status, the descriptor after the call carries method GET and status 200
— the source assigns path.method and path.status on the caller's object,
so the caller's descriptor is not left unchanged. -/
theorem path_descriptor_mutated :
    (validateSchema (fun _ _ => none) false "tok" (.obj []) simpleFrag
        (some { endpoint := some "/x", method := none, status := none })).pathAfter
      = some { endpoint := some "/x", method := some "GET", status := some "200" }
    ∧ some (⟨some "/x", none, none⟩ : PathDescriptor)
      ≠ some (⟨some "/x", some "GET", some "200"⟩ : PathDescriptor) := by decide

/-- C7 (amended): whenever validation is enabled and the schema is not
nullish, the method and status defaults (GET and 200) are written into the
caller's descriptor itself — the descriptor observed after the call is the
caller's object with those two fields defaulted, not an untouched copy. -/
theorem path_descriptor_defaults_in_place
    (ajvErrors : Json → Json → Option (List AjvError)) (randToken : String)
    (data schema : Json) (p : PathDescriptor)
    (hschema : schema.isNullish = false) :
    (validateSchema ajvErrors false randToken data schema (some p)).pathAfter
      = some { p with method := some (jsOrStr p.method "GET"),
                      status := some (jsOrStr p.status "200") } := by
  by_cases hsw : ((getMember schema "swagger").truthy
      || (getMember schema "openapi").truthy) = true
  · rcases hres : _getSchemaFromSpecificationDoc randToken schema p.endpoint
        (some (jsOrStr p.method "GET")) (some (jsOrStr p.status "200")) with err | ok
    all_goals simp [validateSchema, hschema, hsw, hres]
  · simp [validateSchema, hschema, hsw]

/-- Witness for C7's amended statement: the concrete descriptor gains
method GET and status 200 in place. -/
theorem path_descriptor_defaults_witness :
    (validateSchema (fun _ _ => none) false "tok" (.obj []) simpleFrag
        (some { endpoint := some "/x", method := none, status := some "403" })).pathAfter
      = some { endpoint := some "/x", method := some "GET", status := some "403" } := by
  have h := path_descriptor_defaults_in_place (fun _ _ => none) "tok" (.obj [])
    simpleFrag { endpoint := some "/x", method := none, status := some "403" }
    (by decide)
  exact h

/-- C8: the identifier is not unique across calls — `_random` keeps only the
characters of `Math.random().toString(36)` from index 10 on (contradicting
its own doc comment promising a ten-character random string), so two calls
whose random values differ but share that short tail produce the same token,
the same `$id`, and the same resolved schema for the same descriptor. -/
theorem random_token_collision :
    "0.abcdefghij" ≠ "0.zzzzzzzzij"
    ∧ _random "0.abcdefghij" = _random "0.zzzzzzzzij"
    ∧ specSchemaId (_random "0.abcdefghij") "/x" "get" "200"
      = specSchemaId (_random "0.zzzzzzzzij") "/x" "get" "200"
    ∧ _getSchemaFromSpecificationDoc (_random "0.abcdefghij") defaultOnlyDoc
        (some "/x") (some "get") (some "200")
      = _getSchemaFromSpecificationDoc (_random "0.zzzzzzzzij") defaultOnlyDoc
        (some "/x") (some "get") (some "200") := by decide

/-- C9 counterexample: two records resolve to the same target path a.b, yet
the later one's annotation is not what the returned view holds there,
because a third record then overwrites the parent path a. -/
theorem same_path_lastWrite_clobbered :
    targetPath ce1 = targetPath ce2
    ∧ jget (runProjection cdata [ce1, ce2, ce3]).mismatches
        (stringToPath (targetPath ce2)) = .undef
    ∧ Json.undef ≠ .str (annotationOf cdata ce2) := by decide

/-- C9 (amended): among records that resolve to the same target path the
later write wins, provided nothing after it writes an overlapping path: when
the later record is the last one processed and its target path is writable
in the view accumulated so far, the view holds exactly its annotation at
that path. -/
theorem same_path_last_write_wins (data : Json) (l : List AjvError) (e e' : AjvError)
    (hmem : e' ∈ l) (hsame : targetPath e' = targetPath e)
    (hcan : canSet (runProjection data l).mismatches
      (stringToPath (targetPath e)) = true) :
    jget (runProjection data (l ++ [e])).mismatches (stringToPath (targetPath e))
      = .str (annotationOf data e) := by
  rw [runProjection_append, List.foldl_cons, List.foldl_nil]
  show jget (projectError (runProjection data l).data
    (runProjection data l).mismatches e) _ = _
  rw [runProjection_data, projectError]
  exact jget_lodashSet_self _ _ _ hcan

/-- Witness for C9's amended statement: two same-path records, the later
one processed last; the view holds the later annotation. -/
theorem same_path_last_write_wins_witness :
    jget (runProjection cdata [ce1, ce2]).mismatches (stringToPath (targetPath ce2))
      = .str (annotationOf cdata ce2) := by
  have h := same_path_last_write_wins cdata [ce1] ce2 ce1
    (by decide) (by decide) (by decide)
  exact h

end SchemaValidator
